import Mathlib

/-!
Shallow embedding of `src/LRUCache.cpp` (an LRU cache built from an intrusive
doubly-linked list `LRUTwoWayList` of `TwoWayListNode`s plus an
`unordered_map<int, TwoWayListNode*>` index).

Modelling choices:
* Heap-allocated nodes live in an explicit heap: an association list from a
  node id (`Nat`, standing for the pointer value) to the node's fields.
  `_prev`/`_next`/`_front`/`_back` pointers become `Option Nat`
  (`none` = `nullptr`).  A fresh id is drawn from an allocation counter
  (`nextId`), so "a new node was allocated" is observable as `nextId`
  growing, and in-place reuse is observable as `nextId` staying fixed.
* `std::unordered_map<int, TwoWayListNode*>` becomes an association list
  `List (Int × Nat)`; `find`/`erase`/`operator[]=` are translated below.
* `new TwoWayListNode(...)` can throw `std::bad_alloc`; every operation that
  allocates takes a `Bool` saying whether that allocation succeeds, and a
  failed operation returns `Except.error` carrying the state at the moment
  the exception escapes (for `new`, before any mutation).
* C++ statements that would dereference a null or dangling pointer
  (undefined behaviour, unreachable from the public API on valid states) are
  modelled as leaving the heap unchanged; each such spot is marked `UB`.
-/

/-- `constexpr auto KEY_NOT_FOUND_RET_VAL = -1;` -/
def KEY_NOT_FOUND_RET_VAL : Int := -1

/-- `struct TwoWayListNode` : key, value and the two ordering links.
Field names keep the source's `_key`, `_value`, `_prev`, `_next`. -/
structure TwoWayListNode where
  _key : Int
  _value : Int
  _prev : Option Nat
  _next : Option Nat
deriving DecidableEq, Repr

/-- The heap of allocated `TwoWayListNode`s, addressed by node id. -/
abbrev NodeHeap := List (Nat × TwoWayListNode)

/-- Read the node a (non-null) pointer refers to; `none` means the pointer
dangles (no such allocation). -/
def heapGet : NodeHeap → Nat → Option TwoWayListNode
  | [], _ => none
  | (j, m) :: rest, i => if j = i then some m else heapGet rest i

/-- Write through a pointer: replace the node at id `i` (or allocate it there
if absent, used for `new`). -/
def heapSet : NodeHeap → Nat → TwoWayListNode → NodeHeap
  | [], i, n => [(i, n)]
  | (j, m) :: rest, i, n =>
      if j = i then (i, n) :: rest else (j, m) :: heapSet rest i n

/-- `delete` a node: remove id `i` from the heap. -/
def heapErase : NodeHeap → Nat → NodeHeap
  | [], _ => []
  | (j, m) :: rest, i =>
      if j = i then heapErase rest i else (j, m) :: heapErase rest i

/-- `node->_next = q;` — write only the `_next` field of the node at `i`
(`UB` no-op when `i` dangles). -/
def writeNext (h : NodeHeap) (i : Nat) (q : Option Nat) : NodeHeap :=
  match heapGet h i with
  | some n => heapSet h i ⟨n._key, n._value, n._prev, q⟩
  | none => h

/-- `node->_prev = p;` — write only the `_prev` field of the node at `i`
(`UB` no-op when `i` dangles). -/
def writePrev (h : NodeHeap) (i : Nat) (p : Option Nat) : NodeHeap :=
  match heapGet h i with
  | some n => heapSet h i ⟨n._key, n._value, p, n._next⟩
  | none => h

/-- The key/value payload stored at id `i`, ignoring the link fields. -/
def kvAt (h : NodeHeap) (i : Nat) : Option (Int × Int) :=
  (heapGet h i).map (fun n => (n._key, n._value))

/-- `class LRUTwoWayList` : size counter and the `_front`/`_back` pointers.
The nodes themselves live in the `NodeHeap`, threaded through operations. -/
structure LRUTwoWayList where
  _size : Nat
  _front : Option Nat
  _back : Option Nat
deriving DecidableEq, Repr

/-- `LRUTwoWayList()` : empty list. -/
def LRUTwoWayList.init : LRUTwoWayList := ⟨0, none, none⟩

/-- `front()` accessor. -/
def LRUTwoWayList.front (l : LRUTwoWayList) : Option Nat := l._front

/-- `back()` accessor. -/
def LRUTwoWayList.back (l : LRUTwoWayList) : Option Nat := l._back

/-- `size()` accessor. -/
def LRUTwoWayList.size (l : LRUTwoWayList) : Nat := l._size

/-- `std::bad_alloc` as thrown by `new` in `add_to_front`. -/
inductive AllocationFailure where
  | badAlloc
deriving DecidableEq, Repr

/-- `LRUTwoWayList::add_to_front(key, value)` : allocate a new node (id
`nid`, fresh by the caller's allocation counter) and link it as the new
front.  `allocOk = false` means the `new` throws `bad_alloc`; it is the first
statement of the function, so nothing has been mutated when the exception
escapes. -/
def LRUTwoWayList.add_to_front (allocOk : Bool) (l : LRUTwoWayList)
    (h : NodeHeap) (nid : Nat) (key value : Int) :
    Except AllocationFailure (LRUTwoWayList × NodeHeap) :=
  if !allocOk then
    .error .badAlloc
  else
    -- TwoWayListNode *new_node = new TwoWayListNode(key, value);
    let h0 := heapSet h nid ⟨key, value, none, none⟩
    if l._front = none ∧ l._back = none then
      -- first node: _front = _back = new_node; ++_size
      .ok ({ _size := l._size + 1, _front := some nid, _back := some nid }, h0)
    else
      -- new_node->_next = _front;
      let h1 :=
        match heapGet h0 nid with
        | some n => heapSet h0 nid ⟨n._key, n._value, n._prev, l._front⟩
        | none => h0
      -- _front->_prev = new_node;   (UB no-op if _front were null here)
      let h2 :=
        match l._front with
        | some f => writePrev h1 f (some nid)
        | none => h1
      -- _front = new_node; ++_size
      .ok ({ _size := l._size + 1, _front := some nid, _back := l._back }, h2)

/-- `given_node->_prev->_next = given_node->_next;` — first statement of the
interior-unlink case of `move_to_front` (`UB` no-ops when `given_node`
dangles or its `_prev` is null, both unreachable on valid states). -/
def unlinkStmt1 (h : NodeHeap) (g : Nat) : NodeHeap :=
  match heapGet h g with
  | some n =>
      match n._prev with
      | some p => writeNext h p n._next
      | none => h   -- UB: interior node with null _prev
  | none => h       -- UB: dangling given_node

/-- `given_node->_next->_prev = given_node->_prev;` — second statement of
the interior-unlink case of `move_to_front`, reading `given_node`'s fields
again after the first statement, as the source does. -/
def unlinkStmt2 (h : NodeHeap) (g : Nat) : NodeHeap :=
  match heapGet h g with
  | some n =>
      match n._next with
      | some q => writePrev h q n._prev
      | none => h   -- UB: interior node with null _next
  | none => h       -- UB: dangling given_node

/-- First phase of `move_to_front` on a non-front node: splice `given_node`
out of its current position (back case or interior case).  Only `_back` and
link fields change; `_front` and `_size` are untouched. -/
def LRUTwoWayList.unlinkGiven (l : LRUTwoWayList) (h : NodeHeap) (g : Nat) :
    LRUTwoWayList × NodeHeap :=
  if l._back = some g then
    -- _back = _back->_prev; _back->_next = nullptr;
    match (heapGet h g).bind (fun n => n._prev) with
    | some p => ({ l with _back := some p }, writeNext h p none)
    | none => ({ l with _back := none }, h)  -- then `_back->_next` is UB
  else
    (l, unlinkStmt2 (unlinkStmt1 h g) g)

/-- Second phase of `move_to_front`: rewire the spliced-out node as the new
front (`oldFront` is the `_front` value at that program point). -/
def relinkAsFront (oldFront : Option Nat) (h : NodeHeap) (g : Nat) :
    NodeHeap :=
  -- given_node->_next = _front; given_node->_prev = nullptr;
  let h2 :=
    match heapGet h g with
    | some n => heapSet h g ⟨n._key, n._value, none, oldFront⟩
    | none => h           -- UB: dangling given_node
  -- _front->_prev = given_node;   (UB no-op if _front were null)
  match oldFront with
  | some f => writePrev h2 f (some g)
  | none => h2

/-- `LRUTwoWayList::move_to_front(given_node)` : no-op when `given_node` is
already the front; otherwise splice it out (back case or interior case) and
relink it as the new front (`_front = given_node`).  Pure pointer rewiring,
never fails. -/
def LRUTwoWayList.move_to_front (l : LRUTwoWayList) (h : NodeHeap) (g : Nat) :
    LRUTwoWayList × NodeHeap :=
  if l._front = some g then
    (l, h)
  else
    let u := LRUTwoWayList.unlinkGiven l h g
    ({ u.1 with _front := some g }, relinkAsFront u.1._front u.2 g)

/-- `_lru_cache_map.find(key)` on the association-list model of
`std::unordered_map<int, TwoWayListNode*>`. -/
def mapFind : List (Int × Nat) → Int → Option Nat
  | [], _ => none
  | (k, v) :: rest, key => if k = key then some v else mapFind rest key

/-- `_lru_cache_map.erase(key)`. -/
def mapErase : List (Int × Nat) → Int → List (Int × Nat)
  | [], _ => []
  | (k, v) :: rest, key =>
      if k = key then mapErase rest key else (k, v) :: mapErase rest key

/-- `_lru_cache_map[key] = node;` : replace the mapping if the key is
present, otherwise insert it. -/
def mapAssign : List (Int × Nat) → Int → Nat → List (Int × Nat)
  | [], key, v => [(key, v)]
  | (k, w) :: rest, key, v =>
      if k = key then (key, v) :: rest else (k, w) :: mapAssign rest key v

/-- `class InvalidCapacity : public std::exception`, thrown by the
constructor on non-positive capacity. -/
inductive InvalidCapacity where
  | thrown
deriving DecidableEq, Repr

/-- `class LRUCache` : fixed capacity, the recency list, the lookup map,
plus the node heap and the allocation counter (the machine state the C++
object implicitly lives in). -/
structure LRUCache where
  _capacity : Int
  _lru_list : LRUTwoWayList
  _lru_cache_map : List (Int × Nat)
  heap : NodeHeap
  nextId : Nat
deriving DecidableEq, Repr

/-- `LRUCache::LRUCache(int capacity)` : throws `InvalidCapacity` when
`0 >= capacity`, otherwise yields the empty cache. -/
def mkLRUCache (capacity : Int) : Except InvalidCapacity LRUCache :=
  if 0 ≥ capacity then
    .error .thrown
  else
    .ok { _capacity := capacity
          _lru_list := LRUTwoWayList.init
          _lru_cache_map := []
          heap := []
          nextId := 0 }

/-- `LRUCache::get(int key)` : on a miss return `KEY_NOT_FOUND_RET_VAL`;
on a hit move the node to the front and return `iter->second->_value`
(read after the move, as in the source).  Returns the value together with
the updated cache. -/
def LRUCache.get (st : LRUCache) (key : Int) : Int × LRUCache :=
  match mapFind st._lru_cache_map key with
  | none => (KEY_NOT_FOUND_RET_VAL, st)
  | some id =>
      -- _lru_list.move_to_front(iter->second); return iter->second->_value;
      ((match heapGet (LRUTwoWayList.move_to_front st._lru_list st.heap id).2
            id with
        | some n => n._value
        | none => 0),   -- UB: dangling node pointer in the map
       { st with
           _lru_list := (LRUTwoWayList.move_to_front st._lru_list st.heap
               id).1
           heap := (LRUTwoWayList.move_to_front st._lru_list st.heap
               id).2 })

/-- The present-key path of `put`: `iter->second->_value = value;` then
`_lru_list.move_to_front(iter->second);` (`UB` case: the map holds a
dangling node pointer — the value write is skipped). -/
def LRUCache.putPresent (st : LRUCache) (id : Nat) (value : Int) :
    LRUCache :=
  match heapGet st.heap id with
  | some n =>
      { st with
          _lru_list := (LRUTwoWayList.move_to_front st._lru_list
              (heapSet st.heap id ⟨n._key, value, n._prev, n._next⟩) id).1
          heap := (LRUTwoWayList.move_to_front st._lru_list
              (heapSet st.heap id ⟨n._key, value, n._prev, n._next⟩) id).2 }
  | none =>
      { st with
          _lru_list := (LRUTwoWayList.move_to_front st._lru_list st.heap
              id).1
          heap := (LRUTwoWayList.move_to_front st._lru_list st.heap id).2 }

/-- The full-capacity path of `put` on an absent key, `b` being
`_lru_list.back()`: erase the victim's old key from the map, overwrite the
node's key and value in place, move it to the front, and map the new key to
the same node (`UB` case: dangling back pointer — modelled as no-op). -/
def LRUCache.putEvict (st : LRUCache) (key value : Int) (b : Nat) :
    LRUCache :=
  match heapGet st.heap b with
  | some n =>
      { st with
          _lru_list := (LRUTwoWayList.move_to_front st._lru_list
              (heapSet st.heap b ⟨key, value, n._prev, n._next⟩) b).1
          heap := (LRUTwoWayList.move_to_front st._lru_list
              (heapSet st.heap b ⟨key, value, n._prev, n._next⟩) b).2
          _lru_cache_map := mapAssign (mapErase st._lru_cache_map n._key)
              key b }
  | none => st  -- UB: dangling back pointer

/-- `LRUCache::put(int key, int value)`.  Three paths: update-in-place on a
present key; in-place reuse of the back (LRU) node at full capacity;
growth by `add_to_front` otherwise.  `allocOk` feeds the one `new` on the
growth path; on failure the error carries the state at the moment the
exception escapes `put` (the catch block only logs and rethrows). -/
def LRUCache.put (allocOk : Bool) (key value : Int) (st : LRUCache) :
    Except (AllocationFailure × LRUCache) LRUCache :=
  match mapFind st._lru_cache_map key with
  | some id => .ok (LRUCache.putPresent st id value)
  | none =>
      if (LRUTwoWayList.size st._lru_list : Int) = st._capacity then
        -- new_node = _lru_list.back();
        match st._lru_list.back with
        | some b => .ok (LRUCache.putEvict st key value b)
        | none => .ok st      -- UB: null back pointer at full capacity
      else
        match LRUTwoWayList.add_to_front allocOk st._lru_list st.heap
            st.nextId key value with
        | .error e => .error (e, st)  -- `new` threw before any mutation
        | .ok lh =>
            -- _lru_cache_map[key] = new_node;
            .ok { st with
                    _lru_list := lh.1
                    heap := lh.2
                    _lru_cache_map := mapAssign st._lru_cache_map key st.nextId
                    nextId := st.nextId + 1 }

/-- `LRUCache::capacity()` : returns `_capacity` (the C++ `size_t`
conversion is the identity for every capacity the constructor admits). -/
def LRUCache.capacity (st : LRUCache) : Int := st._capacity

/-- `LRUCache::size()` : returns `_lru_list.size()`. -/
def LRUCache.size (st : LRUCache) : Nat := LRUTwoWayList.size st._lru_list

/-- `LRUCache::clear()` : `delete` every node held in the map, then clear
the map.  Note that `_lru_list` is not touched. -/
def LRUCache.clear (st : LRUCache) : LRUCache :=
  { st with
      heap := st._lru_cache_map.foldl (fun h kv => heapErase h kv.2) st.heap
      _lru_cache_map := [] }

/-! ### Concrete states

States reached by the test scenario of the source (`TEST_LOGGED`, capacity
2, operation sequence `put(1,1); put(2,2); get(1); put(3,3); get(2);
put(4,4); get(1); get(3); get(4)`), written out explicitly. -/

/-- The cache produced by `LRUCache(2)`. -/
def demo0 : LRUCache := ⟨2, ⟨0, none, none⟩, [], [], 0⟩

/-- `demo0` after `put(1,1)`. -/
def demo1 : LRUCache :=
  ⟨2, ⟨1, some 0, some 0⟩, [(1, 0)], [(0, ⟨1, 1, none, none⟩)], 1⟩

/-- `demo1` after `put(2,2)`. -/
def demo2 : LRUCache :=
  ⟨2, ⟨2, some 1, some 0⟩, [(1, 0), (2, 1)],
   [(0, ⟨1, 1, some 1, none⟩), (1, ⟨2, 2, none, some 0⟩)], 2⟩

/-- `demo2` after `get(1)` (key 1 promoted to front). -/
def demo3 : LRUCache :=
  ⟨2, ⟨2, some 0, some 1⟩, [(1, 0), (2, 1)],
   [(0, ⟨1, 1, none, some 1⟩), (1, ⟨2, 2, some 0, none⟩)], 2⟩

/-- `demo3` after `put(3,3)` (key 2 evicted, node 1 reused). -/
def demo4 : LRUCache :=
  ⟨2, ⟨2, some 1, some 0⟩, [(1, 0), (3, 1)],
   [(0, ⟨1, 1, some 1, none⟩), (1, ⟨3, 3, none, some 0⟩)], 2⟩

/-- `demo4` after `put(4,4)` (key 1 evicted, node 0 reused). -/
def demo5 : LRUCache :=
  ⟨2, ⟨2, some 0, some 1⟩, [(3, 1), (4, 0)],
   [(0, ⟨4, 4, none, some 1⟩), (1, ⟨3, 3, some 0, none⟩)], 2⟩

/-- `demo5` after `get(3)` (key 3 promoted to front). -/
def demo6 : LRUCache :=
  ⟨2, ⟨2, some 1, some 0⟩, [(3, 1), (4, 0)],
   [(0, ⟨4, 4, some 1, none⟩), (1, ⟨3, 3, none, some 0⟩)], 2⟩

/-- `demo6` after `get(4)` (key 4 promoted to front). -/
def demo7 : LRUCache :=
  ⟨2, ⟨2, some 0, some 1⟩, [(3, 1), (4, 0)],
   [(0, ⟨4, 4, none, some 1⟩), (1, ⟨3, 3, some 0, none⟩)], 2⟩

/-- The cache produced by `LRUCache(1)`. -/
def demoS0 : LRUCache := ⟨1, ⟨0, none, none⟩, [], [], 0⟩

/-- `demoS0` after `put(0, -1)`: a present key whose stored value is the
not-found sentinel. -/
def demoS1 : LRUCache :=
  ⟨1, ⟨1, some 0, some 0⟩, [(0, 0)], [(0, ⟨0, -1, none, none⟩)], 1⟩

/-! ### Helper lemmas about the heap and map models -/

theorem heapGet_heapSet (h : NodeHeap) (i : Nat) (n : TwoWayListNode)
    (j : Nat) :
    heapGet (heapSet h i n) j = if j = i then some n else heapGet h j := by
  induction h with
  | nil =>
      by_cases hj : j = i
      · subst hj; simp [heapSet, heapGet]
      · simp [heapSet, heapGet, hj, Ne.symm hj]
  | cons p rest ih =>
      obtain ⟨a, m⟩ := p
      by_cases ha : a = i
      · subst ha
        by_cases hj : j = a
        · subst hj; simp [heapSet, heapGet]
        · simp [heapSet, heapGet, hj, Ne.symm hj]
      · by_cases hj : a = j
        · subst hj
          simp [heapSet, heapGet, ha, Ne.symm ha]
        · simp [heapSet, heapGet, ha, hj, ih]

theorem kvAt_heapSet_links (h : NodeHeap) (i : Nat) (n : TwoWayListNode)
    (hn : heapGet h i = some n) (p q : Option Nat) (j : Nat) :
    kvAt (heapSet h i ⟨n._key, n._value, p, q⟩) j = kvAt h j := by
  unfold kvAt
  rw [heapGet_heapSet]
  by_cases hj : j = i
  · subst hj; rw [if_pos rfl, hn]; rfl
  · rw [if_neg hj]

theorem kvAt_writeNext (h : NodeHeap) (i : Nat) (q : Option Nat) (j : Nat) :
    kvAt (writeNext h i q) j = kvAt h j := by
  unfold writeNext
  cases hi : heapGet h i with
  | none => rfl
  | some n => exact kvAt_heapSet_links h i n hi n._prev q j

theorem kvAt_writePrev (h : NodeHeap) (i : Nat) (p : Option Nat) (j : Nat) :
    kvAt (writePrev h i p) j = kvAt h j := by
  unfold writePrev
  cases hi : heapGet h i with
  | none => rfl
  | some n => exact kvAt_heapSet_links h i n hi p n._next j

theorem kvAt_relinkAsFront (fr : Option Nat) (h : NodeHeap) (g j : Nat) :
    kvAt (relinkAsFront fr h g) j = kvAt h j := by
  unfold relinkAsFront
  cases hg : heapGet h g with
  | none =>
      cases fr with
      | none => rfl
      | some f => exact kvAt_writePrev h f (some g) j
  | some n =>
      cases fr with
      | none => exact kvAt_heapSet_links h g n hg none none j
      | some f =>
          rw [kvAt_writePrev]
          exact kvAt_heapSet_links h g n hg none (some f) j

theorem kvAt_unlinkStmt1 (h : NodeHeap) (g j : Nat) :
    kvAt (unlinkStmt1 h g) j = kvAt h j := by
  unfold unlinkStmt1
  cases hg : heapGet h g with
  | none => rfl
  | some n =>
      obtain ⟨nk, nv, np, nx⟩ := n
      cases np with
      | none => rfl
      | some p => exact kvAt_writeNext h p nx j

theorem kvAt_unlinkStmt2 (h : NodeHeap) (g j : Nat) :
    kvAt (unlinkStmt2 h g) j = kvAt h j := by
  unfold unlinkStmt2
  cases hg : heapGet h g with
  | none => rfl
  | some n =>
      obtain ⟨nk, nv, np, nx⟩ := n
      cases nx with
      | none => rfl
      | some q => exact kvAt_writePrev h q np j

theorem kvAt_unlinkGiven (l : LRUTwoWayList) (h : NodeHeap) (g j : Nat) :
    kvAt ((LRUTwoWayList.unlinkGiven l h g).2) j = kvAt h j := by
  unfold LRUTwoWayList.unlinkGiven
  by_cases hb : l._back = some g
  · rw [if_pos hb]
    cases hp : (heapGet h g).bind (fun n => n._prev) with
    | none => rfl
    | some p => exact kvAt_writeNext h p none j
  · rw [if_neg hb]
    show kvAt (unlinkStmt2 (unlinkStmt1 h g) g) j = kvAt h j
    rw [kvAt_unlinkStmt2, kvAt_unlinkStmt1]

theorem unlinkGiven_fst_front (l : LRUTwoWayList) (h : NodeHeap) (g : Nat) :
    ((LRUTwoWayList.unlinkGiven l h g).1)._front = l._front := by
  unfold LRUTwoWayList.unlinkGiven
  by_cases hb : l._back = some g
  · rw [if_pos hb]
    cases (heapGet h g).bind (fun n => n._prev) with
    | none => rfl
    | some p => rfl
  · rw [if_neg hb]

theorem unlinkGiven_fst_size (l : LRUTwoWayList) (h : NodeHeap) (g : Nat) :
    ((LRUTwoWayList.unlinkGiven l h g).1)._size = l._size := by
  unfold LRUTwoWayList.unlinkGiven
  by_cases hb : l._back = some g
  · rw [if_pos hb]
    cases (heapGet h g).bind (fun n => n._prev) with
    | none => rfl
    | some p => rfl
  · rw [if_neg hb]

theorem move_to_front_fst_front (l : LRUTwoWayList) (h : NodeHeap)
    (g : Nat) :
    ((LRUTwoWayList.move_to_front l h g).1)._front = some g := by
  unfold LRUTwoWayList.move_to_front
  by_cases hf : l._front = some g
  · rw [if_pos hf]; exact hf
  · rw [if_neg hf]

theorem move_to_front_fst_size (l : LRUTwoWayList) (h : NodeHeap)
    (g : Nat) :
    ((LRUTwoWayList.move_to_front l h g).1)._size = l._size := by
  unfold LRUTwoWayList.move_to_front
  by_cases hf : l._front = some g
  · rw [if_pos hf]
  · rw [if_neg hf]
    exact unlinkGiven_fst_size l h g

theorem move_to_front_kvAt (l : LRUTwoWayList) (h : NodeHeap) (g j : Nat) :
    kvAt ((LRUTwoWayList.move_to_front l h g).2) j = kvAt h j := by
  unfold LRUTwoWayList.move_to_front
  by_cases hf : l._front = some g
  · rw [if_pos hf]
  · rw [if_neg hf]
    simp only
    rw [kvAt_relinkAsFront]
    exact kvAt_unlinkGiven l h g j

theorem move_to_front_noop (l : LRUTwoWayList) (h : NodeHeap) (g : Nat)
    (hf : l._front = some g) :
    LRUTwoWayList.move_to_front l h g = (l, h) := by
  unfold LRUTwoWayList.move_to_front
  rw [if_pos hf]

theorem mapFind_mapErase (m : List (Int × Nat)) (k k' : Int) :
    mapFind (mapErase m k) k' = if k' = k then none else mapFind m k' := by
  induction m with
  | nil => simp [mapErase, mapFind]
  | cons p rest ih =>
      obtain ⟨a, v⟩ := p
      by_cases hak : a = k
      · subst hak
        by_cases hk : k' = a
        · subst hk; simp [mapErase, mapFind, ih]
        · simp [mapErase, mapFind, ih, hk, Ne.symm hk]
      · by_cases hak' : a = k'
        · subst hak'
          simp [mapErase, mapFind, hak, Ne.symm hak]
        · simp [mapErase, mapFind, hak, hak', ih]

theorem mapFind_mapAssign (m : List (Int × Nat)) (k : Int) (v : Nat)
    (k' : Int) :
    mapFind (mapAssign m k v) k' = if k' = k then some v else mapFind m k' := by
  induction m with
  | nil =>
      by_cases hk : k' = k
      · subst hk; simp [mapAssign, mapFind]
      · simp [mapAssign, mapFind, hk, Ne.symm hk]
  | cons p rest ih =>
      obtain ⟨a, w⟩ := p
      by_cases hak : a = k
      · subst hak
        by_cases hk : k' = a
        · subst hk; simp [mapAssign, mapFind]
        · simp [mapAssign, mapFind, hk, Ne.symm hk]
      · by_cases hak' : a = k'
        · subst hak'
          simp [mapAssign, mapFind, hak, Ne.symm hak]
        · simp [mapAssign, mapFind, hak, hak', ih]

deriving instance DecidableEq for Except

/-! ### Claim theorems -/

/-- C1.  The spec says `clear()` makes `size()` return 0.  The code does
release every owned entry and empty the index, and leaves the capacity
unchanged, but it never resets `_lru_list`, so `size()` (which returns
`_lru_list.size()`) still reports the pre-`clear` count: after
`LRUCache(2); put(1,1); clear()` the index and heap are empty and the
capacity is still 2, yet `size()` returns 1, not 0. -/
theorem clear_stale_size :
    LRUCache.put true 1 1 demo0 = .ok demo1 ∧
    (LRUCache.clear demo1)._lru_cache_map = [] ∧
    (LRUCache.clear demo1).heap = [] ∧
    LRUCache.capacity (LRUCache.clear demo1) = LRUCache.capacity demo1 ∧
    LRUCache.size (LRUCache.clear demo1) = 1 := by
  refine ⟨rfl, ?_, ?_, rfl, rfl⟩ <;> rfl

/-- C2.  The global invariant `index.size() == list.size()` is claimed to
hold after every public operation, including `clear()`.  It fails right
after `clear()`: starting from `LRUCache(2); put(1,1)`, a `clear()` empties
the index (0 keys) but `_lru_list` still counts 1 entry (and still points
at the deleted node), so the two structures disagree. -/
theorem clear_breaks_index_list_sync :
    mkLRUCache 2 = .ok demo0 ∧
    LRUCache.put true 1 1 demo0 = .ok demo1 ∧
    (LRUCache.clear demo1)._lru_cache_map.length = 0 ∧
    ((LRUCache.clear demo1)._lru_list)._size = 1 ∧
    (LRUCache.clear demo1)._lru_cache_map.length ≠
      ((LRUCache.clear demo1)._lru_list)._size := by
  refine ⟨rfl, rfl, rfl, rfl, ?_⟩
  decide

/-- C4.  The capacity-2 scenario of the spec (and of the source's
`TEST_LOGGED`): `put(1,1); put(2,2); get(1); put(3,3); get(2); put(4,4);
get(1); get(3); get(4)` — `get(1)` returns 1; `put(3,3)` evicts key 2
(present before, absent after); `get(2)` misses; `put(4,4)` evicts key 1;
the final `get(1)` misses, `get(3)` returns 3 and `get(4)` returns 4. -/
theorem scenario_capacity_two :
    mkLRUCache 2 = .ok demo0 ∧
    LRUCache.put true 1 1 demo0 = .ok demo1 ∧
    LRUCache.put true 2 2 demo1 = .ok demo2 ∧
    LRUCache.get demo2 1 = (1, demo3) ∧
    mapFind demo3._lru_cache_map 2 = some 1 ∧
    LRUCache.put true 3 3 demo3 = .ok demo4 ∧
    mapFind demo4._lru_cache_map 2 = none ∧
    LRUCache.get demo4 2 = (KEY_NOT_FOUND_RET_VAL, demo4) ∧
    mapFind demo4._lru_cache_map 1 = some 0 ∧
    LRUCache.put true 4 4 demo4 = .ok demo5 ∧
    mapFind demo5._lru_cache_map 1 = none ∧
    LRUCache.get demo5 1 = (KEY_NOT_FOUND_RET_VAL, demo5) ∧
    LRUCache.get demo5 3 = (3, demo6) ∧
    LRUCache.get demo6 4 = (4, demo7) := by
  decide

/-- C10.  The not-found sentinel is the concrete integer `-1`, so a stored
value of `-1` is indistinguishable from a miss: in the reachable cache
`LRUCache(1); put(0, -1)` the key 0 is present in the index, yet `get(0)`
returns `KEY_NOT_FOUND_RET_VAL`. -/
theorem sentinel_minus_one_ambiguous :
    KEY_NOT_FOUND_RET_VAL = -1 ∧
    mkLRUCache 1 = .ok demoS0 ∧
    LRUCache.put true 0 (-1) demoS0 = .ok demoS1 ∧
    mapFind demoS1._lru_cache_map 0 = some 0 ∧
    (LRUCache.get demoS1 0).1 = KEY_NOT_FOUND_RET_VAL := by
  decide

theorem heapGet_move_to_front (l : LRUTwoWayList) (h : NodeHeap) (g i : Nat)
    (n : TwoWayListNode) (hg : heapGet h i = some n) :
    ∃ n2, heapGet (LRUTwoWayList.move_to_front l h g).2 i = some n2 ∧
      n2._key = n._key ∧ n2._value = n._value := by
  have hkv := move_to_front_kvAt l h g i
  unfold kvAt at hkv
  rw [hg] at hkv
  cases h2 : heapGet (LRUTwoWayList.move_to_front l h g).2 i with
  | none => rw [h2] at hkv; simp at hkv
  | some n2 =>
      rw [h2] at hkv
      simp only [Option.map_some', Option.some.injEq, Prod.mk.injEq] at hkv
      exact ⟨n2, rfl, hkv.1, hkv.2⟩

/-- C7.  Constructing a cache with capacity `c ≤ 0` throws
`InvalidCapacity` and produces no cache; with `c > 0` it succeeds and the
cache is empty: `size() = 0`, `capacity() = c`, no keys, no nodes. -/
theorem construct_capacity_check (c : Int) :
    (c ≤ 0 → mkLRUCache c = .error .thrown) ∧
    (0 < c → ∃ st, mkLRUCache c = .ok st ∧ LRUCache.size st = 0 ∧
      LRUCache.capacity st = c ∧ st._lru_cache_map = [] ∧ st.heap = []) := by
  constructor
  · intro hc
    unfold mkLRUCache
    rw [if_pos (by omega : (0:Int) ≥ c)]
  · intro hc
    have hok : mkLRUCache c =
        .ok { _capacity := c, _lru_list := LRUTwoWayList.init,
              _lru_cache_map := [], heap := [], nextId := 0 } := by
      unfold mkLRUCache
      rw [if_neg (by omega : ¬ (0:Int) ≥ c)]
    exact ⟨_, hok, rfl, rfl, rfl, rfl⟩

/-- Witness for C7 at the concrete capacities `-3` (rejected) and `2`
(accepted, empty cache). -/
theorem construct_capacity_check_witness :
    mkLRUCache (-3) = .error .thrown ∧
    (∃ st, mkLRUCache 2 = .ok st ∧ LRUCache.size st = 0 ∧
      LRUCache.capacity st = 2 ∧ st._lru_cache_map = [] ∧ st.heap = []) :=
  ⟨(construct_capacity_check (-3)).1 (by decide),
   (construct_capacity_check 2).2 (by decide)⟩

/-- C5.  `get` on an absent key returns the sentinel and leaves the cache
(state, hence recency order, list, index and size) exactly unchanged; `get`
on a present key returns that entry's current value and leaves the entry's
node at the front of the recency list.  `get` is total (never fails). -/
theorem get_hit_miss_semantics (st : LRUCache) (k : Int) :
    (mapFind st._lru_cache_map k = none →
      LRUCache.get st k = (KEY_NOT_FOUND_RET_VAL, st)) ∧
    (∀ id n, mapFind st._lru_cache_map k = some id →
      heapGet st.heap id = some n →
      (LRUCache.get st k).1 = n._value ∧
      ((LRUCache.get st k).2)._lru_list._front = some id ∧
      ((LRUCache.get st k).2)._lru_cache_map = st._lru_cache_map) := by
  constructor
  · intro hmiss
    unfold LRUCache.get
    rw [hmiss]
  · intro id n hfind hget
    obtain ⟨n2, h2, hk2, hv2⟩ :=
      heapGet_move_to_front st._lru_list st.heap id id n hget
    unfold LRUCache.get
    rw [hfind]
    refine ⟨?_, ?_, rfl⟩
    · show (match heapGet
            (LRUTwoWayList.move_to_front st._lru_list st.heap id).2 id with
          | some n => n._value
          | none => 0) = n._value
      rw [h2]
      exact hv2
    · exact move_to_front_fst_front st._lru_list st.heap id

/-- Witness for C5: in `demo1` the key 5 misses and nothing changes; in
`demo2` the key 1 hits, returns 1, and its node (id 0) ends up front. -/
theorem get_hit_miss_semantics_witness :
    LRUCache.get demo1 5 = (KEY_NOT_FOUND_RET_VAL, demo1) ∧
    (LRUCache.get demo2 1).1 = 1 ∧
    ((LRUCache.get demo2 1).2)._lru_list._front = some 0 :=
  ⟨(get_hit_miss_semantics demo1 5).1 (by decide),
   ((get_hit_miss_semantics demo2 1).2 0 ⟨1, 1, some 1, none⟩
      (by decide) (by decide)).1,
   ((get_hit_miss_semantics demo2 1).2 0 ⟨1, 1, some 1, none⟩
      (by decide) (by decide)).2.1⟩

/-- C6.  `put` on a present key overwrites that entry's value, moves its
node to the front, and changes nothing else: the index is untouched (no
eviction), no node is allocated (`nextId` fixed), `size()` is unchanged,
and every other entry keeps its key and value. -/
theorem put_update_in_place (st : LRUCache) (k v : Int) (allocOk : Bool)
    (id : Nat) (n : TwoWayListNode)
    (hfind : mapFind st._lru_cache_map k = some id)
    (hget : heapGet st.heap id = some n) :
    ∃ st', LRUCache.put allocOk k v st = .ok st' ∧
      kvAt st'.heap id = some (n._key, v) ∧
      st'._lru_list._front = some id ∧
      st'._lru_cache_map = st._lru_cache_map ∧
      st'._lru_list._size = st._lru_list._size ∧
      st'.nextId = st.nextId ∧
      (∀ j, j ≠ id → kvAt st'.heap j = kvAt st.heap j) := by
  have hput : LRUCache.put allocOk k v st =
      .ok (LRUCache.putPresent st id v) := by
    unfold LRUCache.put
    rw [hfind]
  have hpp : LRUCache.putPresent st id v =
      { st with
          _lru_list := (LRUTwoWayList.move_to_front st._lru_list
              (heapSet st.heap id ⟨n._key, v, n._prev, n._next⟩) id).1
          heap := (LRUTwoWayList.move_to_front st._lru_list
              (heapSet st.heap id ⟨n._key, v, n._prev, n._next⟩) id).2 } := by
    unfold LRUCache.putPresent
    rw [hget]
  refine ⟨LRUCache.putPresent st id v, hput, ?_, ?_, ?_, ?_, ?_, ?_⟩
  · rw [hpp]
    show kvAt (LRUTwoWayList.move_to_front st._lru_list
        (heapSet st.heap id ⟨n._key, v, n._prev, n._next⟩) id).2 id =
      some (n._key, v)
    rw [move_to_front_kvAt]
    unfold kvAt
    rw [heapGet_heapSet, if_pos rfl]
    rfl
  · rw [hpp]
    exact move_to_front_fst_front st._lru_list _ id
  · rw [hpp]
  · rw [hpp]
    exact move_to_front_fst_size st._lru_list _ id
  · rw [hpp]
  · rw [hpp]
    intro j hj
    show kvAt (LRUTwoWayList.move_to_front st._lru_list
        (heapSet st.heap id ⟨n._key, v, n._prev, n._next⟩) id).2 j =
      kvAt st.heap j
    rw [move_to_front_kvAt]
    unfold kvAt
    rw [heapGet_heapSet, if_neg hj]

/-- Witness for C6: updating the present key 1 of `demo2` to value 9. -/
theorem put_update_in_place_witness :
    ∃ st', LRUCache.put true 1 9 demo2 = .ok st' ∧
      kvAt st'.heap 0 = some (1, 9) ∧
      st'._lru_list._front = some 0 ∧
      st'._lru_cache_map = demo2._lru_cache_map ∧
      st'._lru_list._size = demo2._lru_list._size ∧
      st'.nextId = demo2.nextId ∧
      (∀ j, j ≠ 0 → kvAt st'.heap j = kvAt demo2.heap j) :=
  put_update_in_place demo2 1 9 true 0 ⟨1, 1, some 1, none⟩
    (by decide) (by decide)

/-- C3.  `put` of an absent key into a full cache (with `b` the back node,
holding the victim entry `n` whose key the index maps to `b`): the victim's
old key leaves the index, the same node `b` is overwritten in place with
the new key and value (no allocation: `nextId` is unchanged), the node
moves to the front, the new key maps to `b`, and a `get` on the evicted key
immediately returns the not-found sentinel. -/
theorem put_eviction_reuses_back_node (st : LRUCache) (k v : Int)
    (allocOk : Bool) (b : Nat) (n : TwoWayListNode)
    (habs : mapFind st._lru_cache_map k = none)
    (hfull : (LRUTwoWayList.size st._lru_list : Int) = st._capacity)
    (hback : st._lru_list._back = some b)
    (hbn : heapGet st.heap b = some n)
    (hkey : mapFind st._lru_cache_map n._key = some b) :
    ∃ st', LRUCache.put allocOk k v st = .ok st' ∧
      mapFind st'._lru_cache_map n._key = none ∧
      kvAt st'.heap b = some (k, v) ∧
      st'.nextId = st.nextId ∧
      st'._lru_list._front = some b ∧
      mapFind st'._lru_cache_map k = some b ∧
      (LRUCache.get st' n._key).1 = KEY_NOT_FOUND_RET_VAL := by
  have hne : n._key ≠ k := by
    intro he
    rw [he, habs] at hkey
    exact Option.noConfusion hkey
  have hput : LRUCache.put allocOk k v st =
      .ok (LRUCache.putEvict st k v b) := by
    unfold LRUCache.put
    rw [habs, if_pos hfull]
    unfold LRUTwoWayList.back
    rw [hback]
  have hpe : LRUCache.putEvict st k v b =
      { st with
          _lru_list := (LRUTwoWayList.move_to_front st._lru_list
              (heapSet st.heap b ⟨k, v, n._prev, n._next⟩) b).1
          heap := (LRUTwoWayList.move_to_front st._lru_list
              (heapSet st.heap b ⟨k, v, n._prev, n._next⟩) b).2
          _lru_cache_map := mapAssign (mapErase st._lru_cache_map n._key)
              k b } := by
    unfold LRUCache.putEvict
    rw [hbn]
  have hgone : mapFind (mapAssign (mapErase st._lru_cache_map n._key) k b)
      n._key = none := by
    rw [mapFind_mapAssign, if_neg hne, mapFind_mapErase, if_pos rfl]
  refine ⟨LRUCache.putEvict st k v b, hput, ?_, ?_, ?_, ?_, ?_, ?_⟩
  · rw [hpe]
    exact hgone
  · rw [hpe]
    show kvAt (LRUTwoWayList.move_to_front st._lru_list
        (heapSet st.heap b ⟨k, v, n._prev, n._next⟩) b).2 b = some (k, v)
    rw [move_to_front_kvAt]
    unfold kvAt
    rw [heapGet_heapSet, if_pos rfl]
    rfl
  · rw [hpe]
  · rw [hpe]
    exact move_to_front_fst_front st._lru_list _ b
  · rw [hpe]
    show mapFind (mapAssign (mapErase st._lru_cache_map n._key) k b) k =
      some b
    rw [mapFind_mapAssign, if_pos rfl]
  · rw [hpe]
    unfold LRUCache.get
    show (match mapFind (mapAssign (mapErase st._lru_cache_map n._key) k b)
          n._key with
      | none => (KEY_NOT_FOUND_RET_VAL, _)
      | some id => _).1 = KEY_NOT_FOUND_RET_VAL
    rw [hgone]

/-- Witness for C3: `demo2` is full (capacity 2, keys 1 and 2, back node 0
holding key 1); `put(5,7)` evicts key 1, reuses node 0 and `get(1)` then
misses. -/
theorem put_eviction_reuses_back_node_witness :
    ∃ st', LRUCache.put true 5 7 demo2 = .ok st' ∧
      mapFind st'._lru_cache_map 1 = none ∧
      kvAt st'.heap 0 = some (5, 7) ∧
      st'.nextId = demo2.nextId ∧
      st'._lru_list._front = some 0 ∧
      mapFind st'._lru_cache_map 5 = some 0 ∧
      (LRUCache.get st' 1).1 = KEY_NOT_FOUND_RET_VAL :=
  put_eviction_reuses_back_node demo2 5 7 true 0 ⟨1, 1, some 1, none⟩
    (by decide) (by decide) (by decide) (by decide) (by decide)

/-- C8.  `put` can fail only on the growth path (key absent and size below
capacity, where a node is allocated): a present key and a full cache always
yield `.ok` whatever the allocator does, while a failing allocation on the
growth path propagates the failure and leaves the cache exactly as it was
(the error carries the unchanged state `st`). -/
theorem put_allocation_failure_only_growth (st : LRUCache) (k v : Int) :
    (∀ allocOk id, mapFind st._lru_cache_map k = some id →
      ∃ st', LRUCache.put allocOk k v st = .ok st') ∧
    (∀ allocOk, mapFind st._lru_cache_map k = none →
      (LRUTwoWayList.size st._lru_list : Int) = st._capacity →
      ∃ st', LRUCache.put allocOk k v st = .ok st') ∧
    (mapFind st._lru_cache_map k = none →
      ¬ (LRUTwoWayList.size st._lru_list : Int) = st._capacity →
      LRUCache.put false k v st = .error (.badAlloc, st)) := by
  refine ⟨?_, ?_, ?_⟩
  · intro allocOk id hfind
    refine ⟨LRUCache.putPresent st id v, ?_⟩
    unfold LRUCache.put
    rw [hfind]
  · intro allocOk hnone hfull
    cases hb : st._lru_list._back with
    | none =>
        refine ⟨st, ?_⟩
        unfold LRUCache.put
        rw [hnone, if_pos hfull]
        unfold LRUTwoWayList.back
        rw [hb]
    | some b =>
        refine ⟨LRUCache.putEvict st k v b, ?_⟩
        unfold LRUCache.put
        rw [hnone, if_pos hfull]
        unfold LRUTwoWayList.back
        rw [hb]
  · intro hnone hnotfull
    unfold LRUCache.put
    rw [hnone, if_neg hnotfull]
    rfl

/-- Witness for C8: in the full `demo2` a present-key `put` and an
absent-key `put` both succeed even with a failing allocator, while in the
below-capacity `demo1` an absent-key `put` under a failing allocator
returns `badAlloc` together with the untouched state. -/
theorem put_allocation_failure_only_growth_witness :
    (∃ st', LRUCache.put false 1 9 demo2 = .ok st') ∧
    (∃ st', LRUCache.put false 9 9 demo2 = .ok st') ∧
    LRUCache.put false 9 9 demo1 = .error (.badAlloc, demo1) :=
  ⟨(put_allocation_failure_only_growth demo2 1 9).1 false 0 (by decide),
   (put_allocation_failure_only_growth demo2 9 9).2.1 false (by decide)
     (by decide),
   (put_allocation_failure_only_growth demo1 9 9).2.2 (by decide)
     (by decide)⟩

theorem get_at_front (s : LRUCache) (k : Int) (id : Nat)
    (hfind : mapFind s._lru_cache_map k = some id)
    (hf : s._lru_list._front = some id) :
    LRUCache.get s k =
      ((match heapGet s.heap id with
        | some n => n._value
        | none => 0), s) := by
  unfold LRUCache.get
  rw [hfind]
  show ((match heapGet (LRUTwoWayList.move_to_front s._lru_list s.heap id).2
          id with
        | some n => n._value
        | none => 0),
       { s with
           _lru_list :=
             (LRUTwoWayList.move_to_front s._lru_list s.heap id).1
           heap := (LRUTwoWayList.move_to_front s._lru_list s.heap id).2 }) =
      ((match heapGet s.heap id with
        | some n => n._value
        | none => 0), s)
  rw [move_to_front_noop s._lru_list s.heap id hf]

/-- C9.  Two consecutive `get`s of a present key return the same value and
the second call changes nothing: after the first `get` the node is already
the front, so `move_to_front` is a no-op and the state is returned
exactly as it was. -/
theorem get_idempotent_when_present (st : LRUCache) (k : Int) (id : Nat)
    (hfind : mapFind st._lru_cache_map k = some id) :
    (LRUCache.get (LRUCache.get st k).2 k).1 = (LRUCache.get st k).1 ∧
    (LRUCache.get (LRUCache.get st k).2 k).2 = (LRUCache.get st k).2 := by
  have hmap1 : (LRUCache.get st k).2._lru_cache_map = st._lru_cache_map := by
    unfold LRUCache.get
    rw [hfind]
  have hfront1 : (LRUCache.get st k).2._lru_list._front = some id := by
    unfold LRUCache.get
    rw [hfind]
    exact move_to_front_fst_front st._lru_list st.heap id
  have hfind1 : mapFind (LRUCache.get st k).2._lru_cache_map k = some id := by
    rw [hmap1]
    exact hfind
  have h3 := get_at_front (LRUCache.get st k).2 k id hfind1 hfront1
  constructor
  · rw [h3]
    show (match heapGet (LRUCache.get st k).2.heap id with
          | some n => n._value
          | none => 0) = (LRUCache.get st k).1
    unfold LRUCache.get
    rw [hfind]
  · rw [h3]

/-- Witness for C9: reading the present key 1 of `demo2` twice gives the
same value twice and an unchanged state on the second read. -/
theorem get_idempotent_when_present_witness :
    (LRUCache.get (LRUCache.get demo2 1).2 1).1 = (LRUCache.get demo2 1).1 ∧
    (LRUCache.get (LRUCache.get demo2 1).2 1).2 = (LRUCache.get demo2 1).2 :=
  get_idempotent_when_present demo2 1 0 (by decide)
